import Mathlib

/-!
Shallow embedding of the WPEBackend-droid buffer-pool protocol
(src/renderer-backend-egl.cpp and src/ipc.cpp).

The buffer pool is a fixed `std::array<Buffer, 4>`; we model it as a
function `Fin 4 → Buffer` and unroll the range-for loops in index order.
Pointers into the pool (`buffers.current`) are modelled as
`Option (Fin 4)` indices.  OS / GL handles (AHardwareBuffer*,
EGLImageKHR, GLuint) are modelled as `Option Nat` (absent = nullptr /
EGL_NO_IMAGE_KHR) resp. `Nat` (0 = no GL object), since the code only
tests them for presence.  Protocol sends are collected in a message
list; `std::abort()` / a null-pointer dereference is modelled by an
`Option` result being `none`.
-/

namespace WPEDroid

/-- GL-side objects derived from a buffer handle (`Buffer::gl` in the
source): two renderbuffer ids, 0 meaning "no object". -/
structure GLObjects where
  colorBuffer : Nat
  dsBuffer : Nat
deriving DecidableEq

/-- One slot of the buffer pool (`struct Buffer` in the source).
`object` is the `AHardwareBuffer*` physical handle, `eglImage` the
`EGLImageKHR` derived from it. -/
structure Buffer where
  bufferID : Nat
  locked : Bool
  object : Option Nat
  eglImage : Option Nat
  gl : GLObjects
deriving DecidableEq

/-- A default-initialised slot, as produced by the member initialisers
of `struct Buffer`. -/
def Buffer.init : Buffer :=
  { bufferID := 0, locked := false, object := none, eglImage := none,
    gl := { colorBuffer := 0, dsBuffer := 0 } }

instance : Inhabited Buffer := ⟨Buffer.init⟩

/-- The fixed four-slot pool `std::array<Buffer, 4>`. -/
abbrev Pool := Fin 4 → Buffer

/-- Pool equality is decided slot by slot (kept kernel-reducible so
concrete protocol runs can be checked by `decide`). -/
instance : DecidableEq Pool := fun f g =>
  decidable_of_iff (f 0 = g 0 ∧ f 1 = g 1 ∧ f 2 = g 2 ∧ f 3 = g 3) (by
    constructor
    · rintro ⟨h0, h1, h2, h3⟩
      funext i
      fin_cases i <;> assumption
    · intro h
      exact ⟨congrFun h 0, congrFun h 1, congrFun h 2, congrFun h 3⟩)

/-- The state of one `EGLTarget` session that the protocol logic reads
and writes: render dimensions (`renderer.width/height`), the pool id
assigned by the host (`buffers.poolID`), the current-slot pointer
(`buffers.current`) and the slot array (`buffers.pool`). -/
structure TargetState where
  width : Nat
  height : Nat
  poolID : Nat
  current : Option (Fin 4)
  pool : Pool

/-- Field-wise equality decision for `TargetState` (kernel-reducible:
no cast along the pool-function equality, which holds only by
function extensionality). -/
instance : DecidableEq TargetState := fun a b =>
  match a, b with
  | ⟨w1, x1, p1, c1, l1⟩, ⟨w2, x2, p2, c2, l2⟩ =>
    decidable_of_iff (w1 = w2 ∧ x1 = x2 ∧ p1 = p2 ∧ c1 = c2 ∧ l1 = l2) (by
      rw [TargetState.mk.injEq])

/-- Client-to-host control messages sent by the modelled operations. -/
inductive Msg where
  | bufferAllocation (poolID bufferID : Nat)
  | bufferCommit (poolID bufferID : Nat)
  | poolPurge (poolID : Nat)
deriving DecidableEq

/-- Component-wise equality decision for operation results, again kept
free of casts along the pool-function equality so that concrete runs
reduce under `decide`. -/
instance : DecidableEq (TargetState × List Msg) := fun a b =>
  decidable_of_iff (a.1 = b.1 ∧ a.2 = b.2) Prod.ext_iff.symm

instance : DecidableEq (Option (TargetState × List Msg)) := fun a b =>
  match a, b with
  | none, none => isTrue rfl
  | none, some _ => isFalse (by simp)
  | some _, none => isFalse (by simp)
  | some x, some y => decidable_of_iff (x = y) (by simp)

/-- The slot-selection loop of `EGLTarget::frameWillRender`:
`for (auto& buffer : buffers.pool) { if (buffer.locked) continue;
buffers.current = &buffer; break; }` — the first slot in index order
whose `locked` is false, unrolled for the fixed array size 4. -/
def findFreeIdx (pool : Pool) : Option (Fin 4) :=
  if (pool 0).locked then
    if (pool 1).locked then
      if (pool 2).locked then
        if (pool 3).locked then none
        else some 3
      else some 2
    else some 1
  else some 0

/-- The lazy-allocation phase of `EGLTarget::frameWillRender` on the
chosen slot `i`: if the slot has no physical handle, allocate one
(`allocResult` models the outcome of `AHardwareBuffer_allocate`; `none`
is the early-return failure path), derive the EGL image and the two GL
renderbuffers, and send `BufferAllocation{poolID, bufferID}`; a slot
whose handle is already present is reused unchanged with no message. -/
def allocatePhase (st : TargetState) (i : Fin 4) (allocResult : Option Nat)
    (freshEgl freshColor freshDs : Nat) : TargetState × List Msg :=
  match (st.pool i).object with
  | some _ => ({ st with current := some i }, [])
  | none =>
    match allocResult with
    | none => ({ st with current := some i }, [])
    | some h =>
      ({ st with
         current := some i
         pool := Function.update st.pool i
           { st.pool i with
             object := some h
             eglImage := some freshEgl
             gl := { colorBuffer := freshColor, dsBuffer := freshDs } } },
       [Msg.bufferAllocation st.poolID (st.pool i).bufferID])

/-- `EGLTarget::frameWillRender` (the pool-state part; the one-time EGL
entry-point lookup touches no pool state).  The loop leaves
`buffers.current` unchanged when every slot is locked; if `current` is
then still null the code calls `std::abort()`, modelled as `none`. -/
def frameWillRender (st : TargetState) (allocResult : Option Nat)
    (freshEgl freshColor freshDs : Nat) : Option (TargetState × List Msg) :=
  match findFreeIdx st.pool, st.current with
  | none, none => none
  | none, some i => some (allocatePhase st i allocResult freshEgl freshColor freshDs)
  | some i, _ => some (allocatePhase st i allocResult freshEgl freshColor freshDs)

/-- The message part of `EGLTarget::frameRendered`: `BufferCommit` is
sent only under `if (buffers.current->object)`. -/
def commitMsgs (st : TargetState) (i : Fin 4) : List Msg :=
  match (st.pool i).object with
  | some _ => [Msg.bufferCommit st.poolID (st.pool i).bufferID]
  | none => []

/-- `EGLTarget::frameRendered`: dereferences `buffers.current`
unconditionally (`none` models the null dereference), sends
`BufferCommit{poolID, bufferID}` only when the slot's physical handle
is present, then sets `locked = true` and clears `current`. -/
def frameRendered (st : TargetState) : Option (TargetState × List Msg) :=
  match st.current with
  | none => none
  | some i =>
    some ({ st with
            current := none
            pool := Function.update st.pool i { st.pool i with locked := true } },
      commitMsgs st i)

/-- The matching loop of `EGLTarget::releaseBuffer`: unlock the first
slot in index order whose `bufferID` matches, then `break`; no-op when
none matches.  Unrolled for the fixed array size 4. -/
def unlockMatching (pool : Pool) (bufferID : Nat) : Pool :=
  if (pool 0).bufferID = bufferID then Function.update pool 0 { pool 0 with locked := false }
  else if (pool 1).bufferID = bufferID then Function.update pool 1 { pool 1 with locked := false }
  else if (pool 2).bufferID = bufferID then Function.update pool 2 { pool 2 with locked := false }
  else if (pool 3).bufferID = bufferID then Function.update pool 3 { pool 3 with locked := false }
  else pool

/-- `EGLTarget::releaseBuffer(poolID, bufferID)`: ignore the message
when the pool id is not this session's pool id, else unlock the
matching slot. -/
def releaseBuffer (st : TargetState) (poolID bufferID : Nat) : TargetState :=
  if st.poolID ≠ poolID then st
  else { st with pool := unlockMatching st.pool bufferID }

/-- The per-slot body of `destroyBufferPool`: delete the GL
renderbuffers, destroy the EGL image, release the hardware buffer,
clear `locked` and the handle.  `bufferID` is untouched. -/
def destroyBuffer (b : Buffer) : Buffer :=
  { b with
    gl := { colorBuffer := 0, dsBuffer := 0 }
    eglImage := none
    locked := false
    object := none }

/-- `destroyBufferPool`: reset every slot of the pool. -/
def destroyBufferPool (pool : Pool) : Pool :=
  fun i => destroyBuffer (pool i)

/-- `EGLTarget::resize(width, height)`: early-return when the
dimensions already match, otherwise store the new dimensions, destroy
the buffer pool and send `PoolPurge{poolID}`. -/
def resize (st : TargetState) (w h : Nat) : TargetState × List Msg :=
  if st.width = w ∧ st.height = h then (st, [])
  else
    ({ st with width := w, height := h, pool := destroyBufferPool st.pool },
     [Msg.poolPurge st.poolID])

section Registry

variable {α : Type}

/-- `std::unordered_map<uint32_t, EGLTarget*>::find`, on the
association-list model of `m_targetMap`. -/
def findTarget (m : List (Nat × α)) (k : Nat) : Option α :=
  match m with
  | [] => none
  | (k', t) :: rest => if k' = k then some t else findTarget rest k

/-- `RendererBackend::registerEGLTarget`: `m_targetMap.insert({poolId,
target})` — `std::unordered_map::insert` adds the pair only when the
key is not yet present and leaves an existing mapping unchanged. -/
def registerEGLTarget (m : List (Nat × α)) (poolId : Nat) (t : α) : List (Nat × α) :=
  match findTarget m poolId with
  | some _ => m
  | none => (poolId, t) :: m

/-- Decoded inbound messages dispatched by
`RendererBackend::handleMessage` (the `messageCode` switch). -/
inductive InMsg where
  | frameComplete (poolID : Nat)
  | releaseBufferMsg (poolID bufferID : Nat)
  | other (code : Nat)
deriving DecidableEq

/-- Observable outcome of `RendererBackend::handleMessage`:
`fatalError` models `g_error` (which terminates the process),
the two dispatch constructors record the resolved target and the
forwarded call, `ignored` the size-mismatch / unknown-code returns. -/
inductive DispatchResult (α : Type) where
  | fatalError
  | frameCompleteDispatched (t : α)
  | releaseDispatched (t : α) (poolID bufferID : Nat)
  | ignored
deriving DecidableEq

/-- `RendererBackend::handleMessage(data, size)`: drop the message when
`size != IPC::Message::size` (`msgSize` stands for the fixed frame
size from ipc.h, which only declares it); for `FrameComplete` and
`ReleaseBuffer` look the pool id up in `m_targetMap`, `g_error` when
missing, else forward to the registered target; unknown codes are
ignored. -/
def handleMessage (m : List (Nat × α)) (size msgSize : Nat) (msg : InMsg) :
    DispatchResult α :=
  if size ≠ msgSize then .ignored
  else
    match msg with
    | .frameComplete poolID =>
      match findTarget m poolID with
      | none => .fatalError
      | some t => .frameCompleteDispatched t
    | .releaseBufferMsg poolID bufferID =>
      match findTarget m poolID with
      | none => .fatalError
      | some t => .releaseDispatched t poolID bufferID
    | .other _ => .ignored

end Registry

section Channel

/-- Outcome of the underlying receive call in a socket callback:
`readError` is the `-1` return, `readOk n` a read of `n` bytes. -/
inductive ReadResult where
  | readError
  | readOk (n : Nat)
deriving DecidableEq

/-- Observable outcome of one socket-callback invocation:
`keepSource` is the gboolean return (FALSE deactivates the readiness
source), `handlerInvoked` records whether the message handler upcall
ran. -/
structure CallbackOutcome where
  keepSource : Bool
  handlerInvoked : Bool
deriving DecidableEq

/-- `IPC::Host::socketCallback`: no-op unless readable; on a `-1` read
give up (return FALSE); invoke the handler exactly when the read
length equals `Message::size` (`msgSize`); always return TRUE
otherwise. -/
def hostSocketCallback (msgSize : Nat) (hasInput : Bool) (r : ReadResult) :
    CallbackOutcome :=
  if !hasInput then ⟨true, false⟩
  else
    match r with
    | .readError => ⟨false, false⟩
    | .readOk n => ⟨true, decide (n = msgSize)⟩

/-- `IPC::Client::socketCallback`: as the host side, with the extra
`client->m_handler` null check before the upcall. -/
def clientSocketCallback (msgSize : Nat) (hasInput : Bool) (r : ReadResult)
    (hasHandler : Bool) : CallbackOutcome :=
  if !hasInput then ⟨true, false⟩
  else
    match r with
    | .readError => ⟨false, false⟩
    | .readOk n => ⟨true, decide (n = msgSize) && hasHandler⟩

/-- Outcome of one underlying `sendmsg` call: `sendOk n` returns the
byte count `n ≥ 0`, `sendErr e` is a `-1` return with `errno = e`. -/
inductive SendOutcome where
  | sendOk (n : Nat)
  | sendErr (e : Nat)
deriving DecidableEq

/-- The POSIX `EINTR` errno value. -/
def EINTR : Nat := 4

/-- `IPC::Client::sendFileDescriptor`, over the sequence of outcomes
of the successive `sendmsg` calls: retry while the call fails with
`EINTR`; on any other failure return `-errno`; on success return
`NO_ERROR` (0).  `none` models the (unreachable in finite time)
exhaustion of the outcome sequence. -/
def sendFileDescriptor : List SendOutcome → Option Int
  | [] => none
  | .sendOk _ :: _ => some 0
  | .sendErr e :: rest =>
    if e = EINTR then sendFileDescriptor rest else some (-(e : Int))

end Channel

section Epoch

/-- One purge epoch's worth of operations on a target session: the
three pool operations plus `resize` (which ends an epoch). -/
inductive Op where
  | acquire (allocResult : Option Nat) (freshEgl freshColor freshDs : Nat)
  | commit
  | release (poolID bufferID : Nat)
  | resizeOp (w h : Nat)
deriving DecidableEq

/-- One protocol step of a target session; `none` models
`std::abort()` / the null dereference in `frameRendered`. -/
def step (st : TargetState) : Op → Option (TargetState × List Msg)
  | .acquire a e c d => frameWillRender st a e c d
  | .commit => frameRendered st
  | .release p b => some (releaseBuffer st p b, [])
  | .resizeOp w h => some (resize st w h)

/-- Run a sequence of operations, concatenating the sent messages. -/
def run (st : TargetState) : List Op → Option (TargetState × List Msg)
  | [] => some (st, [])
  | op :: ops =>
    match step st op with
    | none => none
    | some (st', msgs) =>
      match run st' ops with
      | none => none
      | some (st'', msgs') => some (st'', msgs ++ msgs')

/-- Does a message announce a buffer allocation for buffer id `bid`? -/
def isAllocFor (bid : Nat) : Msg → Bool
  | .bufferAllocation _ b => decide (b = bid)
  | _ => false

/-- Number of `BufferAllocation` announcements for buffer id `bid` in a
message list. -/
def countAlloc (msgs : List Msg) (bid : Nat) : Nat :=
  (msgs.filter (isAllocFor bid)).length

/-- The slot-numbering invariant established by the `EGLTarget`
constructor: slot `i` carries buffer id `i`. -/
def WF (st : TargetState) : Prop :=
  ∀ i : Fin 4, (st.pool i).bufferID = i.val

/-- Resize-operation discriminator, used to state "within one purge
epoch" (a run with no intervening `resize`). -/
def Op.isResize : Op → Bool
  | .resizeOp _ _ => true
  | _ => false

end Epoch

/-! ## Helper lemmas -/

theorem update_pool_apply (pool : Pool) (j : Fin 4) (b : Buffer) (i : Fin 4) :
    Function.update pool j b i = if i = j then b else pool i :=
  Function.update_apply pool j b i

theorem allocatePhase_current (st : TargetState) (i : Fin 4) (a : Option Nat)
    (e c d : Nat) : (allocatePhase st i a e c d).1.current = some i := by
  unfold allocatePhase
  rcases ho : (st.pool i).object with _ | v <;> rcases a with _ | h <;> simp

/-- The chosen-slot selection always lets `frameWillRender` proceed:
whenever the scan finds a free slot the result is `some` with that slot
current. -/
theorem frameWillRender_of_found (st : TargetState) (a : Option Nat) (e c d : Nat)
    (i : Fin 4) (hf : findFreeIdx st.pool = some i) :
    frameWillRender st a e c d = some (allocatePhase st i a e c d) := by
  unfold frameWillRender
  rw [hf]

/-! ## Claim theorems -/

/-- C1: with every one of the 4 slots locked and no current slot held,
`EGLTarget::frameWillRender` reaches `std::abort()` (modelled as the
`none` result): no state is produced and no locked slot is picked. -/
theorem pool_saturation_aborts (st : TargetState) (a : Option Nat) (e c d : Nat)
    (hlocked : ∀ i : Fin 4, (st.pool i).locked = true)
    (hcur : st.current = none) :
    frameWillRender st a e c d = none := by
  have hfind : findFreeIdx st.pool = none := by
    unfold findFreeIdx
    simp [hlocked 0, hlocked 1, hlocked 2, hlocked 3]
  unfold frameWillRender
  rw [hfind, hcur]

def saturatedState : TargetState :=
  { width := 640
    height := 480
    poolID := 7
    current := none
    pool := fun i => { Buffer.init with bufferID := i.val, locked := true } }

theorem pool_saturation_aborts_witness :
    (∀ i : Fin 4, (saturatedState.pool i).locked = true) ∧
    saturatedState.current = none ∧
    frameWillRender saturatedState none 0 0 0 = none :=
  ⟨fun _ => rfl, rfl,
    pool_saturation_aborts saturatedState none 0 0 0 (fun _ => rfl) rfl⟩

/-- C2: with at least one unlocked slot, `EGLTarget::frameWillRender`
succeeds and selects as current exactly the lowest-index slot whose
`locked` is false (every lower-index slot is locked). -/
theorem acquire_picks_first_free (st : TargetState) (a : Option Nat) (e c d : Nat)
    (hfree : ∃ i : Fin 4, (st.pool i).locked = false) :
    ∃ (i : Fin 4) (st' : TargetState) (msgs : List Msg),
      frameWillRender st a e c d = some (st', msgs) ∧
      st'.current = some i ∧
      (st.pool i).locked = false ∧
      ∀ j : Fin 4, j < i → (st.pool j).locked = true := by
  cases h0 : (st.pool 0).locked
  · refine ⟨0, (allocatePhase st 0 a e c d).1, (allocatePhase st 0 a e c d).2,
      ?_, allocatePhase_current st 0 a e c d, h0, ?_⟩
    · rw [frameWillRender_of_found st a e c d 0 (by simp [findFreeIdx, h0])]
    · intro j hj
      exact absurd hj (by simp [Fin.lt_def])
  · cases h1 : (st.pool 1).locked
    · refine ⟨1, (allocatePhase st 1 a e c d).1, (allocatePhase st 1 a e c d).2,
        ?_, allocatePhase_current st 1 a e c d, h1, ?_⟩
      · rw [frameWillRender_of_found st a e c d 1 (by simp [findFreeIdx, h0, h1])]
      · intro j hj
        fin_cases j
        · exact h0
        · exact absurd hj (by decide)
        · exact absurd hj (by decide)
        · exact absurd hj (by decide)
    · cases h2 : (st.pool 2).locked
      · refine ⟨2, (allocatePhase st 2 a e c d).1, (allocatePhase st 2 a e c d).2,
          ?_, allocatePhase_current st 2 a e c d, h2, ?_⟩
        · rw [frameWillRender_of_found st a e c d 2
            (by simp [findFreeIdx, h0, h1, h2])]
        · intro j hj
          fin_cases j
          · exact h0
          · exact h1
          · exact absurd hj (by decide)
          · exact absurd hj (by decide)
      · cases h3 : (st.pool 3).locked
        · refine ⟨3, (allocatePhase st 3 a e c d).1, (allocatePhase st 3 a e c d).2,
            ?_, allocatePhase_current st 3 a e c d, h3, ?_⟩
          · rw [frameWillRender_of_found st a e c d 3
              (by simp [findFreeIdx, h0, h1, h2, h3])]
          · intro j hj
            fin_cases j
            · exact h0
            · exact h1
            · exact h2
            · exact absurd hj (by decide)
        · obtain ⟨i, hi⟩ := hfree
          fin_cases i
          · simp [h0] at hi
          · simp [h1] at hi
          · simp [h2] at hi
          · simp [h3] at hi

def partiallyLockedState : TargetState :=
  { width := 320
    height := 240
    poolID := 5
    current := none
    pool := fun i =>
      { Buffer.init with bufferID := i.val, locked := decide (i.val < 2) } }

theorem acquire_picks_first_free_witness :
    ∃ (i : Fin 4) (st' : TargetState) (msgs : List Msg),
      frameWillRender partiallyLockedState none 0 0 0 = some (st', msgs) ∧
      st'.current = some i ∧
      (partiallyLockedState.pool i).locked = false ∧
      ∀ j : Fin 4, j < i → (partiallyLockedState.pool j).locked = true :=
  acquire_picks_first_free partiallyLockedState none 0 0 0 ⟨2, rfl⟩

theorem Buffer.unlock_noop (b : Buffer) (h : b.locked = false) :
    { b with locked := false } = b := by
  cases b
  simp_all

theorem unlockMatching_pointwise (pool : Pool) (bid : Nat)
    (e0 : (pool 0).bufferID = 0) (e1 : (pool 1).bufferID = 1)
    (e2 : (pool 2).bufferID = 2) (e3 : (pool 3).bufferID = 3) (i : Fin 4) :
    unlockMatching pool bid i =
      if (pool i).bufferID = bid then { pool i with locked := false }
      else pool i := by
  rcases Nat.lt_or_ge bid 4 with hb | hb
  · interval_cases bid <;> fin_cases i <;>
      simp [unlockMatching, update_pool_apply, e0, e1, e2, e3]
  · have hb0 : ¬(0 = bid) := by omega
    have hb1 : ¬(1 = bid) := by omega
    have hb2 : ¬(2 = bid) := by omega
    have hb3 : ¬(3 = bid) := by omega
    fin_cases i <;>
      simp [unlockMatching, e0, e1, e2, e3, hb0, hb1, hb2, hb3]

/-- C4: `EGLTarget::releaseBuffer` with a foreign pool id is a complete
no-op; with the session's pool id it unlocks exactly the slot whose
buffer id matches (given the constructor's slot numbering), leaves
every other slot and all non-pool state unchanged, and is a no-op on a
slot that was already unlocked. -/
theorem release_buffer_semantics (st : TargetState) (p bid : Nat) (hwf : WF st) :
    (st.poolID ≠ p → releaseBuffer st p bid = st) ∧
    (st.poolID = p →
      (releaseBuffer st p bid).width = st.width ∧
      (releaseBuffer st p bid).height = st.height ∧
      (releaseBuffer st p bid).poolID = st.poolID ∧
      (releaseBuffer st p bid).current = st.current ∧
      ∀ i : Fin 4,
        ((st.pool i).bufferID = bid →
          (releaseBuffer st p bid).pool i = { st.pool i with locked := false }) ∧
        ((st.pool i).bufferID ≠ bid →
          (releaseBuffer st p bid).pool i = st.pool i) ∧
        ((st.pool i).locked = false →
          (releaseBuffer st p bid).pool i = st.pool i)) := by
  have e0 : (st.pool 0).bufferID = 0 := hwf 0
  have e1 : (st.pool 1).bufferID = 1 := hwf 1
  have e2 : (st.pool 2).bufferID = 2 := hwf 2
  have e3 : (st.pool 3).bufferID = 3 := hwf 3
  constructor
  · intro hne
    simp [releaseBuffer, hne]
  · intro heq
    have hrb : releaseBuffer st p bid = { st with pool := unlockMatching st.pool bid } := by
      simp [releaseBuffer, heq]
    rw [hrb]
    refine ⟨rfl, rfl, rfl, rfl, ?_⟩
    intro i
    have hpt := unlockMatching_pointwise st.pool bid e0 e1 e2 e3 i
    refine ⟨?_, ?_, ?_⟩
    · intro hbid
      show unlockMatching st.pool bid i = _
      rw [hpt, if_pos hbid]
    · intro hbid
      show unlockMatching st.pool bid i = _
      rw [hpt, if_neg hbid]
    · intro hlk
      show unlockMatching st.pool bid i = _
      rw [hpt]
      split_ifs with hbid
      · exact Buffer.unlock_noop (st.pool i) hlk
      · rfl

def releaseState : TargetState :=
  { width := 100
    height := 100
    poolID := 7
    current := none
    pool := fun i =>
      { Buffer.init with
        bufferID := i.val
        locked := decide (i.val = 1)
        object := if i.val = 1 then some 42 else none } }

theorem release_buffer_semantics_witness :
    releaseBuffer releaseState 9 1 = releaseState ∧
    (releaseBuffer releaseState 7 1).pool 1 =
      { releaseState.pool 1 with locked := false } ∧
    (releaseBuffer releaseState 7 1).pool 0 = releaseState.pool 0 ∧
    (releaseBuffer releaseState 7 3).pool 3 = releaseState.pool 3 := by
  have hwf : WF releaseState := fun _ => rfl
  have hm := (release_buffer_semantics releaseState 7 1 hwf).2 rfl
  have hm3 := (release_buffer_semantics releaseState 7 3 hwf).2 rfl
  exact ⟨(release_buffer_semantics releaseState 9 1 hwf).1 (by decide),
    (hm.2.2.2.2 1).1 rfl, (hm.2.2.2.2 0).2.1 (by decide),
    (hm3.2.2.2.2 3).2.2 rfl⟩

/-- C5: `EGLTarget::resize` with unchanged dimensions changes nothing
and sends nothing; with new dimensions it stores them, resets every
slot to Free (handle and EGL image absent, GL objects zeroed, unlocked,
buffer id kept) and sends `PoolPurge` with the session's pool id. -/
theorem resize_semantics (st : TargetState) (w h : Nat) :
    (st.width = w ∧ st.height = h → resize st w h = (st, [])) ∧
    (¬(st.width = w ∧ st.height = h) →
      (resize st w h).2 = [Msg.poolPurge st.poolID] ∧
      (resize st w h).1.width = w ∧
      (resize st w h).1.height = h ∧
      (resize st w h).1.poolID = st.poolID ∧
      ∀ i : Fin 4,
        ((resize st w h).1.pool i).object = none ∧
        ((resize st w h).1.pool i).locked = false ∧
        ((resize st w h).1.pool i).eglImage = none ∧
        ((resize st w h).1.pool i).gl = { colorBuffer := 0, dsBuffer := 0 } ∧
        ((resize st w h).1.pool i).bufferID = (st.pool i).bufferID) := by
  constructor
  · intro hEq
    simp [resize, hEq.1, hEq.2]
  · intro hNe
    simp [resize, hNe, destroyBufferPool, destroyBuffer]

def resizeState : TargetState :=
  { width := 640
    height := 480
    poolID := 7
    current := none
    pool := fun i =>
      { Buffer.init with
        bufferID := i.val
        locked := decide (i.val = 0)
        object := if i.val ≤ 1 then some (40 + i.val) else none } }

theorem resize_semantics_witness :
    resize resizeState 640 480 = (resizeState, []) ∧
    (resize resizeState 320 240).2 = [Msg.poolPurge 7] ∧
    ((resize resizeState 320 240).1.pool 0).object = none ∧
    ((resize resizeState 320 240).1.pool 0).locked = false ∧
    (resize resizeState 320 240).1.width = 320 := by
  have h1 := (resize_semantics resizeState 640 480).1 ⟨rfl, rfl⟩
  have h2 := (resize_semantics resizeState 320 240).2 (by decide)
  exact ⟨h1, h2.1, (h2.2.2.2.2 0).1, (h2.2.2.2.2 0).2.1, h2.2.1⟩

/-- C6: `RendererBackend::handleMessage` on a `FrameComplete` or
`ReleaseBuffer` whose pool id is not in `m_targetMap` reaches
`g_error` (fatal process termination); with a registered entry the
message is forwarded to that target. -/
theorem dispatch_unknown_pool_fatal {α : Type} (m : List (Nat × α))
    (msgSize p bid : Nat) :
    (findTarget m p = none →
      handleMessage m msgSize msgSize (.frameComplete p) = .fatalError ∧
      handleMessage m msgSize msgSize (.releaseBufferMsg p bid) = .fatalError) ∧
    (∀ t, findTarget m p = some t →
      handleMessage m msgSize msgSize (.frameComplete p) = .frameCompleteDispatched t ∧
      handleMessage m msgSize msgSize (.releaseBufferMsg p bid) =
        .releaseDispatched t p bid) := by
  constructor
  · intro hnone
    constructor <;> simp [handleMessage, hnone]
  · intro t ht
    constructor <;> simp [handleMessage, ht]

theorem dispatch_unknown_pool_fatal_witness :
    handleMessage ([] : List (Nat × Nat)) 32 32 (.frameComplete 99) = .fatalError ∧
    handleMessage [(7, 5)] 32 32 (.releaseBufferMsg 7 2) = .releaseDispatched 5 7 2 := by
  exact ⟨(dispatch_unknown_pool_fatal ([] : List (Nat × Nat)) 32 99 0).1 rfl |>.1,
    ((dispatch_unknown_pool_fatal [(7, 5)] 32 7 2).2 5 rfl).2⟩

/-- C7 (amended): in both socket callbacks the handler upcall runs
exactly when the read length equals the fixed frame size; every other
successful read length — zero-length reads included — is ignored with
the readiness source kept alive; only a failed read (`-1` return)
deactivates the readiness source (the closure handling). -/
theorem socket_read_length_semantics (msgSize n : Nat) :
    ((hostSocketCallback msgSize true (.readOk n)).handlerInvoked = true ↔
      n = msgSize) ∧
    ((clientSocketCallback msgSize true (.readOk n) true).handlerInvoked = true ↔
      n = msgSize) ∧
    (n ≠ msgSize →
      hostSocketCallback msgSize true (.readOk n) = ⟨true, false⟩ ∧
      clientSocketCallback msgSize true (.readOk n) true = ⟨true, false⟩) ∧
    hostSocketCallback msgSize true .readError = ⟨false, false⟩ ∧
    clientSocketCallback msgSize true .readError true = ⟨false, false⟩ := by
  refine ⟨?_, ?_, ?_, rfl, rfl⟩
  · simp [hostSocketCallback]
  · simp [clientSocketCallback]
  · intro hne
    constructor <;> simp [hostSocketCallback, clientSocketCallback, hne]

theorem socket_read_length_semantics_witness :
    (hostSocketCallback 32 true (.readOk 32)).handlerInvoked = true ∧
    hostSocketCallback 32 true (.readOk 0) = ⟨true, false⟩ ∧
    clientSocketCallback 32 true (.readOk 0) true = ⟨true, false⟩ ∧
    hostSocketCallback 32 true .readError = ⟨false, false⟩ := by
  have h32 := socket_read_length_semantics 32 32
  have h0 := socket_read_length_semantics 32 0
  exact ⟨h32.1.mpr rfl, (h0.2.2.1 (by decide)).1, (h0.2.2.1 (by decide)).2,
    h0.2.2.2.1⟩

/-- C7 counterexample to the claim as stated: a zero-length read does
not signal channel closure — the callback keeps the readiness source
active (`keepSource = true`) and treats the read exactly like any other
partial-size read (here, 7 of 32 bytes), i.e. as an ignored
non-message; only a `-1` read deactivates the source. -/
theorem zero_read_not_closure_counterexample :
    hostSocketCallback 32 true (.readOk 0) = ⟨true, false⟩ ∧
    clientSocketCallback 32 true (.readOk 0) true = ⟨true, false⟩ ∧
    hostSocketCallback 32 true (.readOk 0) = hostSocketCallback 32 true (.readOk 7) ∧
    clientSocketCallback 32 true (.readOk 0) true =
      clientSocketCallback 32 true (.readOk 7) true ∧
    (hostSocketCallback 32 true (.readOk 0)).keepSource ≠
      (hostSocketCallback 32 true .readError).keepSource := by
  decide

/-- C8 (amended): `EGLTarget::frameRendered` with a current slot held
always locks that slot and clears "current", but sends
`BufferCommit{poolID, bufferID}` only when the slot's physical handle
is present; when the handle is absent (the failed-allocation path), no
message is sent. -/
theorem commit_semantics (st : TargetState) (i : Fin 4)
    (hcur : st.current = some i) :
    frameRendered st = some
      ({ st with
         current := none
         pool := Function.update st.pool i { st.pool i with locked := true } },
       if (st.pool i).object.isSome
       then [Msg.bufferCommit st.poolID (st.pool i).bufferID]
       else []) := by
  unfold frameRendered
  rw [hcur]
  rcases ho : (st.pool i).object with _ | v <;> simp [commitMsgs, ho]

def commitReadyState : TargetState :=
  { width := 64
    height := 64
    poolID := 9
    current := some 0
    pool := fun i =>
      { Buffer.init with
        bufferID := i.val
        object := if i.val = 0 then some 11 else none } }

theorem commit_semantics_witness :
    frameRendered commitReadyState = some
      ({ commitReadyState with
         current := none
         pool := Function.update commitReadyState.pool 0
           { commitReadyState.pool 0 with locked := true } },
       if (commitReadyState.pool 0).object.isSome
       then [Msg.bufferCommit commitReadyState.poolID
         (commitReadyState.pool 0).bufferID]
       else []) :=
  commit_semantics commitReadyState 0 rfl

def commitNoHandleState : TargetState :=
  { width := 64
    height := 64
    poolID := 9
    current := some 0
    pool := fun i => { Buffer.init with bufferID := i.val } }

/-- C8 counterexample to the claim as stated: with the current slot
held but its physical handle absent (reachable via the
failed-allocation early return in `frameWillRender`), `frameRendered`
sends no `BufferCommit` at all — the message list is empty — while the
claim requires one on every commit with a current slot held. -/
theorem commit_without_handle_counterexample :
    (frameRendered commitNoHandleState).map Prod.snd = some [] ∧
    (frameRendered commitNoHandleState).map Prod.snd ≠
      some [Msg.bufferCommit 9 0] := by
  constructor
  · rfl
  · decide

/-- C9: `IPC::Client::sendFileDescriptor` retries the underlying
`sendmsg` while it fails with `EINTR`, returns 0 once a call succeeds,
and returns the negated errno — a negative value for any positive
errno — when a call fails with any other error. -/
theorem send_fd_retry_semantics (k : Nat) (rest : List SendOutcome) (n e : Nat)
    (he : e ≠ EINTR) :
    sendFileDescriptor
      (List.replicate k (.sendErr EINTR) ++ .sendOk n :: rest) = some 0 ∧
    sendFileDescriptor
      (List.replicate k (.sendErr EINTR) ++ .sendErr e :: rest) = some (-(e : Int)) ∧
    (0 < e → -(e : Int) < 0) := by
  induction k with
  | zero =>
    refine ⟨rfl, ?_, ?_⟩
    · simp [sendFileDescriptor, he]
    · intro hpos
      omega
  | succ k ih =>
    refine ⟨?_, ?_, ih.2.2⟩
    · rw [List.replicate_succ, List.cons_append]
      simpa [sendFileDescriptor] using ih.1
    · rw [List.replicate_succ, List.cons_append]
      simpa [sendFileDescriptor] using ih.2.1

theorem send_fd_retry_semantics_witness :
    sendFileDescriptor
      (List.replicate 2 (.sendErr EINTR) ++ .sendOk 1 :: []) = some 0 ∧
    sendFileDescriptor
      (List.replicate 2 (.sendErr EINTR) ++ .sendErr 13 :: []) = some (-13) ∧
    (-13 : Int) < 0 := by
  have h := send_fd_retry_semantics 2 [] 1 13 (by decide)
  exact ⟨h.1, h.2.1, h.2.2 (by decide)⟩

/-- C10: registering a second target under an already-registered pool
id leaves the registry unchanged (`std::unordered_map::insert` does not
overwrite), so later `FrameComplete` / `ReleaseBuffer` messages for
that pool id still dispatch to the originally registered target. -/
theorem register_no_overwrite {α : Type} (m : List (Nat × α))
    (msgSize P bid : Nat) (T T' : α) (h : findTarget m P = some T) :
    registerEGLTarget m P T' = m ∧
    findTarget (registerEGLTarget m P T') P = some T ∧
    handleMessage (registerEGLTarget m P T') msgSize msgSize (.frameComplete P) =
      .frameCompleteDispatched T ∧
    handleMessage (registerEGLTarget m P T') msgSize msgSize
      (.releaseBufferMsg P bid) = .releaseDispatched T P bid := by
  have hr : registerEGLTarget m P T' = m := by
    simp [registerEGLTarget, h]
  rw [hr]
  refine ⟨rfl, h, ?_, ?_⟩ <;> simp [handleMessage, h]

theorem register_no_overwrite_witness :
    registerEGLTarget [(7, 1), (8, 2)] 7 99 = [(7, 1), (8, 2)] ∧
    findTarget (registerEGLTarget [(7, 1), (8, 2)] 7 99) 7 = some 1 ∧
    handleMessage (registerEGLTarget [(7, 1), (8, 2)] 7 99) 32 32
      (.frameComplete 7) = .frameCompleteDispatched 1 :=
  have h := register_no_overwrite [(7, 1), (8, 2)] 32 7 0 1 99 rfl
  ⟨h.1, h.2.1, h.2.2.1⟩

/-! ## C3: at most one allocation per slot per purge epoch -/

theorem countAlloc_append (a b : List Msg) (bid : Nat) :
    countAlloc (a ++ b) bid = countAlloc a bid + countAlloc b bid := by
  simp [countAlloc, List.filter_append]

theorem countAlloc_alloc_single (p q bid : Nat) :
    countAlloc [Msg.bufferAllocation p q] bid = if q = bid then 1 else 0 := by
  by_cases h : q = bid <;> simp [countAlloc, isAllocFor, h]

theorem countAlloc_commitMsgs (st : TargetState) (j : Fin 4) (bid : Nat) :
    countAlloc (commitMsgs st j) bid = 0 := by
  unfold commitMsgs
  rcases (st.pool j).object with _ | v <;> simp [countAlloc, isAllocFor]

theorem unlockMatching_object (pool : Pool) (bid : Nat) (i : Fin 4) :
    (unlockMatching pool bid i).object = (pool i).object ∧
    (unlockMatching pool bid i).bufferID = (pool i).bufferID := by
  unfold unlockMatching
  split_ifs <;>
    first
      | exact ⟨rfl, rfl⟩
      | constructor <;>
          · rw [update_pool_apply]
            split_ifs with hi
            · subst hi
              rfl
            · rfl

theorem releaseBuffer_pool_fields (st : TargetState) (p b : Nat) (i : Fin 4) :
    ((releaseBuffer st p b).pool i).object = (st.pool i).object ∧
    ((releaseBuffer st p b).pool i).bufferID = (st.pool i).bufferID := by
  unfold releaseBuffer
  split_ifs with h
  · exact ⟨rfl, rfl⟩
  · exact unlockMatching_object st.pool b i

/-- Per-slot allocation accounting for the lazy-allocation phase of
`frameWillRender`: the slot numbering is preserved, at most one
`BufferAllocation` for slot `i` is sent, none at all when the slot's
handle was already present (in which case the handle is reused
unchanged), and none when the slot's handle is still absent
afterwards. -/
theorem allocatePhase_alloc_bound (st : TargetState) (j : Fin 4) (a : Option Nat)
    (e c d : Nat) (i : Fin 4) (hwf : WF st) :
    WF (allocatePhase st j a e c d).1 ∧
    countAlloc (allocatePhase st j a e c d).2 i.val ≤ 1 ∧
    ((st.pool i).object.isSome →
      countAlloc (allocatePhase st j a e c d).2 i.val = 0 ∧
      ((allocatePhase st j a e c d).1.pool i).object = (st.pool i).object) ∧
    (((allocatePhase st j a e c d).1.pool i).object = none →
      countAlloc (allocatePhase st j a e c d).2 i.val = 0) := by
  rcases a with _ | hndl <;> rcases ho : (st.pool j).object with _ | v <;>
    simp only [allocatePhase, ho]
  · exact ⟨hwf, Nat.zero_le 1, fun _ => ⟨rfl, by trivial⟩, fun _ => rfl⟩
  · exact ⟨hwf, Nat.zero_le 1, fun _ => ⟨rfl, by trivial⟩, fun _ => rfl⟩
  · -- allocation branch
    have hbid : (st.pool j).bufferID = j.val := hwf j
    rw [hbid]
    by_cases hij : i = j
    · subst hij
      refine ⟨?_, ?_, ?_, ?_⟩
      · intro k
        simp only [update_pool_apply]
        split_ifs with hk
        · subst hk
          rfl
        · exact hwf k
      · rw [countAlloc_alloc_single]
        split_ifs <;> omega
      · intro hs
        rw [ho] at hs
        simp at hs
      · intro hnone
        simp only [update_pool_apply, if_pos rfl] at hnone
        simp at hnone
    · have hvij : ¬(j.val = i.val) := fun hv => hij (Fin.ext hv.symm)
      have hcnt : countAlloc [Msg.bufferAllocation st.poolID j.val] i.val = 0 := by
        rw [countAlloc_alloc_single, if_neg hvij]
      refine ⟨?_, ?_, ?_, ?_⟩
      · intro k
        simp only [update_pool_apply]
        split_ifs with hk
        · subst hk
          rfl
        · exact hwf k
      · rw [hcnt]
        omega
      · intro _
        refine ⟨hcnt, ?_⟩
        simp only [update_pool_apply, if_neg hij]
      · intro _
        exact hcnt
  · exact ⟨hwf, Nat.zero_le 1, fun _ => ⟨rfl, by trivial⟩, fun _ => rfl⟩

/-- Per-step allocation accounting within one purge epoch (any op but
`resize`). -/
theorem step_alloc_bound (st : TargetState) (op : Op) (st' : TargetState)
    (msgs : List Msg) (i : Fin 4) (hwf : WF st) (hnr : op.isResize = false)
    (hstep : step st op = some (st', msgs)) :
    WF st' ∧
    countAlloc msgs i.val ≤ 1 ∧
    ((st.pool i).object.isSome →
      countAlloc msgs i.val = 0 ∧ (st'.pool i).object = (st.pool i).object) ∧
    ((st'.pool i).object = none → countAlloc msgs i.val = 0) := by
  cases op with
  | resizeOp w h => simp [Op.isResize] at hnr
  | release p b =>
    simp only [step] at hstep
    have hP : (releaseBuffer st p b, ([] : List Msg)) = (st', msgs) :=
      Option.some.inj hstep
    injection hP with h1 h2
    subst h1
    subst h2
    refine ⟨?_, Nat.zero_le 1, fun _ => ⟨rfl, (releaseBuffer_pool_fields st p b i).1⟩,
      fun _ => rfl⟩
    intro k
    rw [(releaseBuffer_pool_fields st p b k).2]
    exact hwf k
  | commit =>
    simp only [step] at hstep
    unfold frameRendered at hstep
    rcases hc : st.current with _ | j <;> rw [hc] at hstep
    · simp at hstep
    · have hP : ({ st with
          current := none
          pool := Function.update st.pool j { st.pool j with locked := true } },
          commitMsgs st j) = (st', msgs) := Option.some.inj hstep
      injection hP with h1 h2
      subst h1
      subst h2
      have hobj : ∀ k : Fin 4,
          ((Function.update st.pool j { st.pool j with locked := true }) k).object =
            (st.pool k).object := by
        intro k
        simp only [update_pool_apply]
        split_ifs with hk
        · subst hk
          rfl
        · rfl
      refine ⟨?_, ?_, fun _ => ⟨countAlloc_commitMsgs st j i.val, hobj i⟩,
        fun _ => countAlloc_commitMsgs st j i.val⟩
      · intro k
        simp only [update_pool_apply]
        split_ifs with hk
        · subst hk
          exact hwf k
        · exact hwf k
      · rw [countAlloc_commitMsgs]
        omega
  | acquire a e c d =>
    simp only [step] at hstep
    unfold frameWillRender at hstep
    rcases hf : findFreeIdx st.pool with _ | j <;> rw [hf] at hstep
    · rcases hc : st.current with _ | j <;> rw [hc] at hstep
      · simp at hstep
      · have hP : allocatePhase st j a e c d = (st', msgs) := Option.some.inj hstep
        have h1 : st' = (allocatePhase st j a e c d).1 := by rw [hP]
        have h2 : msgs = (allocatePhase st j a e c d).2 := by rw [hP]
        subst h1
        subst h2
        exact allocatePhase_alloc_bound st j a e c d i hwf
    · have hP : allocatePhase st j a e c d = (st', msgs) := Option.some.inj hstep
      have h1 : st' = (allocatePhase st j a e c d).1 := by rw [hP]
      have h2 : msgs = (allocatePhase st j a e c d).2 := by rw [hP]
      subst h1
      subst h2
      exact allocatePhase_alloc_bound st j a e c d i hwf

/-- A handle present at the start of an epoch is preserved by every
run without resize, and no further `BufferAllocation` for that slot is
sent. -/
theorem run_handle_preserved (ops : List Op) (st st' : TargetState)
    (msgs : List Msg) (i : Fin 4) (hwf : WF st)
    (hnr : ∀ op ∈ ops, op.isResize = false)
    (hrun : run st ops = some (st', msgs))
    (hobj : (st.pool i).object.isSome) :
    countAlloc msgs i.val = 0 ∧ (st'.pool i).object = (st.pool i).object := by
  induction ops generalizing st msgs with
  | nil =>
    have hP : (st, ([] : List Msg)) = (st', msgs) := Option.some.inj hrun
    injection hP with h1 h2
    subst h1
    subst h2
    exact ⟨rfl, rfl⟩
  | cons op ops ih =>
    simp only [run] at hrun
    rcases hs : step st op with _ | p
    · rw [hs] at hrun
      simp at hrun
    · obtain ⟨st1, msgs1⟩ := p
      rw [hs] at hrun
      dsimp only at hrun
      rcases hr : run st1 ops with _ | q
      · rw [hr] at hrun
        simp at hrun
      · obtain ⟨st2, msgs2⟩ := q
        rw [hr] at hrun
        have hP : (st2, msgs1 ++ msgs2) = (st', msgs) := Option.some.inj hrun
        injection hP with h1 h2
        subst h1
        subst h2
        obtain ⟨hwf1, _, hsome, _⟩ :=
          step_alloc_bound st op st1 msgs1 i hwf (hnr op (List.mem_cons_self op ops)) hs
        obtain ⟨hc1, hpres1⟩ := hsome hobj
        have hobj1 : (st1.pool i).object.isSome := by
          rw [hpres1]
          exact hobj
        obtain ⟨hc2, hpres2⟩ := ih st1 msgs2 hwf1
          (fun o ho => hnr o (List.mem_cons_of_mem op ho)) hr hobj1
        refine ⟨?_, by rw [hpres2, hpres1]⟩
        rw [countAlloc_append, hc1, hc2]

/-- Any run without resize sends at most one `BufferAllocation` for a
given slot. -/
theorem run_alloc_le_one (ops : List Op) (st st' : TargetState)
    (msgs : List Msg) (i : Fin 4) (hwf : WF st)
    (hnr : ∀ op ∈ ops, op.isResize = false)
    (hrun : run st ops = some (st', msgs)) :
    countAlloc msgs i.val ≤ 1 := by
  induction ops generalizing st msgs with
  | nil =>
    have hP : (st, ([] : List Msg)) = (st', msgs) := Option.some.inj hrun
    injection hP with h1 h2
    subst h1
    subst h2
    exact Nat.zero_le 1
  | cons op ops ih =>
    simp only [run] at hrun
    rcases hs : step st op with _ | p
    · rw [hs] at hrun
      simp at hrun
    · obtain ⟨st1, msgs1⟩ := p
      rw [hs] at hrun
      dsimp only at hrun
      rcases hr : run st1 ops with _ | q
      · rw [hr] at hrun
        simp at hrun
      · obtain ⟨st2, msgs2⟩ := q
        rw [hr] at hrun
        have hP : (st2, msgs1 ++ msgs2) = (st', msgs) := Option.some.inj hrun
        injection hP with h1 h2
        subst h1
        subst h2
        obtain ⟨hwf1, hle1, _, hnone⟩ :=
          step_alloc_bound st op st1 msgs1 i hwf (hnr op (List.mem_cons_self op ops)) hs
        have hnr1 : ∀ o ∈ ops, o.isResize = false :=
          fun o ho => hnr o (List.mem_cons_of_mem op ho)
        rw [countAlloc_append]
        rcases hobj1 : (st1.pool i).object with _ | v
        · have h0 : countAlloc msgs1 i.val = 0 := hnone hobj1
          have hrest := ih st1 msgs2 hwf1 hnr1 hr
          omega
        · have hrest := (run_handle_preserved ops st1 st2 msgs2 i hwf1 hnr1 hr
            (by rw [hobj1]; rfl)).1
          omega

/-- C3: within one purge epoch (a run of acquire / commit / release
steps with no resize), each slot's `BufferAllocation{poolID, bufferID}`
announcement is sent at most once, and an acquire of a slot whose
physical handle is already present reuses that same handle and sends no
new `BufferAllocation` for it at all. -/
theorem buffer_allocation_once_per_epoch (st : TargetState) (ops : List Op)
    (st' : TargetState) (msgs : List Msg) (i : Fin 4) (hwf : WF st)
    (hnr : ∀ op ∈ ops, op.isResize = false)
    (hrun : run st ops = some (st', msgs)) :
    countAlloc msgs i.val ≤ 1 ∧
    ((st.pool i).object.isSome →
      countAlloc msgs i.val = 0 ∧ (st'.pool i).object = (st.pool i).object) :=
  ⟨run_alloc_le_one ops st st' msgs i hwf hnr hrun,
   fun hobj => run_handle_preserved ops st st' msgs i hwf hnr hrun hobj⟩

def epochStart : TargetState :=
  { width := 640
    height := 480
    poolID := 7
    current := none
    pool := fun i => { Buffer.init with bufferID := i.val } }

def epochOps : List Op :=
  [.acquire (some 11) 1 2 3, .commit, .release 7 0, .acquire (some 12) 4 5 6]

def epochFinal : TargetState :=
  { width := 640
    height := 480
    poolID := 7
    current := some 0
    pool := fun i =>
      if i = 0 then
        { bufferID := 0
          locked := false
          object := some 11
          eglImage := some 1
          gl := { colorBuffer := 2, dsBuffer := 3 } }
      else { Buffer.init with bufferID := i.val } }

def epochOps2 : List Op := [.acquire (some 99) 7 8 9, .commit, .release 7 0]

def epochFinal2 : TargetState := { epochFinal with current := none }

theorem buffer_allocation_once_per_epoch_witness :
    countAlloc [Msg.bufferAllocation 7 0, Msg.bufferCommit 7 0] 0 ≤ 1 ∧
    countAlloc [Msg.bufferCommit 7 0] 0 = 0 ∧
    (epochFinal2.pool 0).object = (epochFinal.pool 0).object := by
  have h1 := buffer_allocation_once_per_epoch epochStart epochOps epochFinal
    [Msg.bufferAllocation 7 0, Msg.bufferCommit 7 0] 0
    (fun _ => rfl) (by decide) (by decide)
  have h2 := buffer_allocation_once_per_epoch epochFinal epochOps2 epochFinal2
    [Msg.bufferCommit 7 0] 0 (by intro i; fin_cases i <;> rfl) (by decide) (by decide)
  exact ⟨h1.1, (h2.2 (by decide)).1, (h2.2 (by decide)).2⟩

end WPEDroid
